import Mathlib

/-!
Verification development for the rust-chord repository.

This file shallowly embeds the parts of the source that the checked
properties concern:

* the sampler worklet processor (the pure-JavaScript processor installed
  by the worklet, together with the worklet wrapper methods around it),
* the video decoder's frame buffer and frame lookup,
* the audio/video synchronization controller,
* the envelope generator (modelled from the spec, since the engine that
  would implement it is not present in the repository).

Audio amplitudes, sample rates and times are modelled as rationals; the
source uses IEEE floats, but every property checked here concerns index
arithmetic, control flow, event emission and exact linear formulas, none
of which depend on rounding.
-/

namespace RustChord

/-! ## Sampler worklet processor (src/unnamed/part_004)

The worklet installs a plain-JavaScript processor object
(`this.rustProcessor`) whose fields live on the worklet instance:
`sampleBuffer` (a Float32Array or null), `sampleRate` (the source rate of
the loaded sample), `isPlaying`, and `playbackPosition`.  `initialized`
is set exactly when `rustProcessor` is created, so the two null checks in
`process` collapse to one flag here.
-/

/-- State of the worklet's JavaScript sampler processor. -/
structure SamplerState where
  initialized : Bool
  sampleBuffer : Option (List ℚ)
  sampleRate : ℚ
  isPlaying : Bool
  playbackPosition : ℚ
  deriving Repr, DecidableEq

/-- Messages the worklet posts back to the main thread.  The source posts
`levels` with `rms = Math.sqrt(sum / output.length)`; the payload here
carries the mean square (the value under the square root) so the
embedding stays in ℚ — no checked property reads the level payload. -/
inductive WorkletEvent where
  | initializedMsg : WorkletEvent
  | sampleLoaded : WorkletEvent
  | errorMsg (message : String) : WorkletEvent
  | levels (peak meanSquare : ℚ) : WorkletEvent
  deriving Repr, DecidableEq

/-- `rustProcessor.load_sample_data(leftChannel, sampleRate)`: stores the
buffer and rate and resets the playback position; no validation is
performed on the buffer or rate. -/
def load_sample_data (s : SamplerState) (leftChannel : List ℚ) (rate : ℚ) : SamplerState :=
  { s with sampleBuffer := some leftChannel, sampleRate := rate, playbackPosition := 0 }

/-- `rustProcessor.set_playback_state(isPlaying)`: stores the flag and
resets the position to 0 whenever the flag is false. -/
def set_playback_state (s : SamplerState) (playing : Bool) : SamplerState :=
  { s with isPlaying := playing,
           playbackPosition := if playing then s.playbackPosition else 0 }

/-- The per-sample loop of `rustProcessor.process`: for each output slot,
take `sampleIndex = floor(position)`; if it is past the end of the
buffer, reset the position to 0, clear the playing flag and write 0,
otherwise write the sample and advance the position by
`sampleRate / deviceRate`.  The playing flag is NOT rechecked inside the
loop, exactly as in the source. -/
def blockLoop (buf : List ℚ) (step : ℚ) :
    Nat → ℚ → Bool → (List ℚ × ℚ × Bool)
  | 0, pos, playing => ([], pos, playing)
  | n + 1, pos, playing =>
    let sampleIndex : ℤ := ⌊pos⌋
    if sampleIndex ≥ (buf.length : ℤ) then
      let r := blockLoop buf step n 0 false
      (0 :: r.1, r.2)
    else
      let r := blockLoop buf step n (pos + step) playing
      (buf.getD sampleIndex.toNat 0 :: r.1, r.2)

/-- `rustProcessor.process(inputs, outputs)`: if a sample is loaded and
playback is active, run the block loop; otherwise write a block of
silence.  Always returns `true` (the final component).  `deviceRate` is
the worklet-global `sampleRate`; `blockSize` the output channel length. -/
def rust_process (deviceRate : ℚ) (s : SamplerState) (blockSize : Nat) :
    SamplerState × List ℚ × Bool :=
  match s.sampleBuffer with
  | some buf =>
    if s.isPlaying then
      let r := blockLoop buf (s.sampleRate / deviceRate) blockSize s.playbackPosition s.isPlaying
      ({ s with playbackPosition := r.2.1, isPlaying := r.2.2 }, r.1, true)
    else
      (s, List.replicate blockSize 0, true)
  | none => (s, List.replicate blockSize 0, true)

/-- Channel data passed to `loadSample`: `{left, right, sampleRate}`.
The right channel is accepted but never reaches the processor (the
source passes only `leftChannel` to `load_sample_data`). -/
structure AudioData where
  left : List ℚ
  right : Option (List ℚ)
  sampleRate : ℚ
  deriving Repr, DecidableEq

/-- The worklet's `loadSample(audioData)` method: a no-op when the
processor is uninitialized; otherwise it hands the left channel and rate
to `load_sample_data` and posts a `sampleLoaded` message. -/
def loadSample (s : SamplerState) (audioData : AudioData) :
    SamplerState × List WorkletEvent :=
  if s.initialized then
    (load_sample_data s audioData.left audioData.sampleRate, [.sampleLoaded])
  else
    (s, [])

/-- The worklet's `setPlaybackState(isPlaying, resetPosition)` method:
sets the instance fields, then calls `set_playback_state`. -/
def setPlaybackState (s : SamplerState) (playing resetPosition : Bool) : SamplerState :=
  if s.initialized then
    let s1 := { s with isPlaying := playing,
                       playbackPosition := if resetPosition then 0 else s.playbackPosition }
    set_playback_state s1 playing
  else
    s

/-- Peak of a block: the maximum absolute sample value, starting from 0. -/
def blockPeak (out : List ℚ) : ℚ :=
  out.foldl (fun acc x => max acc |x|) 0

/-- Sum of squared sample values of a block. -/
def blockSumSq (out : List ℚ) : ℚ :=
  out.foldl (fun acc x => acc + |x| * |x|) 0

/-- The try/catch boundary of the worklet's `process` method.  The inner
per-block step is passed explicitly so that a step that throws can be
modelled: a thrown step carries the message together with the state and
output as left at the moment of the throw (JavaScript mutations made
before a throw survive it).  When uninitialized, silence is written and
`true` returned; when the step throws, the catch logs and returns `true`
with no message posted; on success, a `levels` message is posted when the
throttling draw (`Math.random() < 0.05`, the `levelDraw` argument)
succeeds.  Result: (state, output block, returned flag, posted events). -/
def renderBoundary (s : SamplerState) (blockSize : Nat) (levelDraw : Bool)
    (inner : SamplerState → Nat → Except (String × SamplerState × List ℚ)
      (SamplerState × List ℚ × Bool)) :
    SamplerState × List ℚ × Bool × List WorkletEvent :=
  if s.initialized then
    match inner s blockSize with
    | .ok (s2, out, flag) =>
      (s2, out, flag,
        if levelDraw then [.levels (blockPeak out) (blockSumSq out / out.length)] else [])
    | .error (_, s2, out) => (s2, out, true, [])
  else
    (s, List.replicate blockSize 0, true, [])

/-- The worklet's `process` composed with the actual inner step
`rustProcessor.process`, which never throws in this embedding. -/
def samplerProcess (deviceRate : ℚ) (s : SamplerState) (blockSize : Nat)
    (levelDraw : Bool) : SamplerState × List ℚ × Bool × List WorkletEvent :=
  renderBoundary s blockSize levelDraw (fun st n => .ok (rust_process deviceRate st n))

/-! ## Video decoder frame buffer (src/unnamed/part_002)

`VideoDecoderManager` keeps `frameBuffer` (an array, oldest first),
`maxBufferSize = 30`, `currentTime` and `duration`.  Frames carry a
timestamp in microseconds.  Evicted or cleared frames have `close()`
called on them; eviction is modelled by returning the list of closed
frames alongside the kept buffer. -/

/-- A decoded video frame: timestamp in microseconds, plus dimensions
standing in for the pixel payload. -/
structure VideoFrame where
  timestamp : ℚ
  width : Nat
  height : Nat
  deriving Repr, DecidableEq

/-- `this.maxBufferSize = 30`. -/
def maxBufferSize : Nat := 30

/-- The eviction loop of `addFrameToBuffer`: while the buffer exceeds
`m` frames, shift the oldest off the front and close it.  Returns
(kept buffer, closed frames, oldest first). -/
def trimFrameBuffer (m : Nat) : List VideoFrame → List VideoFrame × List VideoFrame
  | [] => ([], [])
  | oldest :: rest =>
    if (oldest :: rest).length > m then
      let r := trimFrameBuffer m rest
      (r.1, oldest :: r.2)
    else
      (oldest :: rest, [])

/-- `addFrameToBuffer(frame)`: push the frame, then evict-and-close
oldest frames while over capacity.  Returns (kept buffer, closed
frames). -/
def addFrameToBuffer (buf : List VideoFrame) (frame : VideoFrame) :
    List VideoFrame × List VideoFrame :=
  trimFrameBuffer maxBufferSize (buf ++ [frame])

/-- `clearFrameBuffer()`: close every frame and empty the buffer.
Returns (new buffer, closed frames). -/
def clearFrameBuffer (buf : List VideoFrame) : List VideoFrame × List VideoFrame :=
  ([], buf)

/-- One step of the closest-frame scan in `getFrameAtTime`: keep the
incoming frame exactly when its timestamp distance to the query is
strictly smaller than the best so far (the first frame always beats the
initial `closestDiff = Infinity`). -/
def closerFrame (timeUs : ℚ) (acc : Option VideoFrame) (frame : VideoFrame) :
    Option VideoFrame :=
  match acc with
  | none => some frame
  | some best =>
    if |frame.timestamp - timeUs| < |best.timestamp - timeUs| then some frame
    else some best

/-- `getFrameAtTime(time)`: convert the query to microseconds and scan
the buffer for the frame with the smallest absolute timestamp
difference; null when the buffer is empty. -/
def getFrameAtTime (buf : List VideoFrame) (time : ℚ) : Option VideoFrame :=
  buf.foldl (closerFrame (time * 1000000)) none

/-- The decoder state the sync layer interacts with: the frame buffer,
the media duration and the video element's current time. -/
structure DecoderState where
  frameBuffer : List VideoFrame
  duration : ℚ
  currentTime : ℚ
  deriving Repr, DecidableEq

/-- `seek(time)`: clamp the target to `[0, duration]`, move the video
element there and clear the frame buffer. -/
def decoderSeek (st : DecoderState) (time : ℚ) : DecoderState :=
  let clampedTime := max 0 (min time st.duration)
  { st with currentTime := clampedTime,
            frameBuffer := (clearFrameBuffer st.frameBuffer).1 }

/-! ## Audio/video synchronization (src/frontend/src/video/sync.js) -/

/-- `config.maxTimeDifference` default: 0.1 seconds. -/
def defaultMaxTimeDifference : ℚ := 1 / 10

/-- `syncAudioVideo(videoDecoder, audioTime)`: when the absolute
difference between the audio time and the decoder's current time
strictly exceeds the threshold, seek the decoder to the audio time.
Returns the updated decoder together with the issued seek target, if
any. -/
def syncAudioVideo (maxTimeDifference : ℚ) (st : DecoderState) (audioTime : ℚ) :
    DecoderState × Option ℚ :=
  let timeDiff := |audioTime - st.currentTime|
  if timeDiff > maxTimeDifference then (decoderSeek st audioTime, some audioTime)
  else (st, none)

/-- The record returned by `calculateSyncMetrics`. -/
structure SyncMetrics where
  timeDifference : ℚ
  inSync : Bool
  syncQuality : ℚ
  deriving Repr, DecidableEq

/-- `calculateSyncMetrics(videoDecoder, audioTime)`: null decoder gives
perfect metrics; otherwise `timeDifference` is signed,
`inSync = |timeDifference| ≤ maxTimeDifference`, and
`syncQuality = max(0, 100 - (|timeDifference| / maxTimeDifference) * 100)`. -/
def calculateSyncMetrics (maxTimeDifference : ℚ) (videoDecoder : Option DecoderState)
    (audioTime : ℚ) : SyncMetrics :=
  match videoDecoder with
  | none => ⟨0, true, 100⟩
  | some st =>
    let timeDiff := audioTime - st.currentTime
    ⟨timeDiff, decide (|timeDiff| ≤ maxTimeDifference),
      max 0 (100 - (|timeDiff| / maxTimeDifference) * 100)⟩

/-! ## Envelope generator -/

/-- Modelled from the spec: the AHDSR envelope parameters of §4.2.  The
engine that implements the envelope (the Rust processor behind
`wasmModule.create_processor()`) is not in the repository; the worklet's
`triggerEnvelope` / `releaseEnvelope` / `setEnvelopeParameters` methods
are stubs that only log. -/
structure EnvelopeParams where
  attackTime : ℚ
  decayTime : ℚ
  holdTime : ℚ
  sustainLevel : ℚ
  releaseTime : ℚ
  deriving Repr, DecidableEq

/-- Modelled from the spec: the envelope stages of §4.2. -/
inductive EnvelopeStage where
  | idle | attack | decay | hold | sustain | release
  deriving Repr, DecidableEq

/-- Modelled from the spec: the envelope state of §3 —
`{stage, currentLevel, stageElapsed}`, extended with the level at entry
into the current stage, which §4.2's ramps are anchored to ("ramps
linearly from its value-at-entry", "ramps from whatever level was
current at the moment of release"). -/
structure EnvelopeState where
  stage : EnvelopeStage
  currentLevel : ℚ
  stageStartLevel : ℚ
  stageElapsed : ℚ
  deriving Repr, DecidableEq

/-- Modelled from the spec: "A trigger event arriving in any stage
restarts Attack from the current level (no forced reset to 0)". -/
def triggerEnvelope (s : EnvelopeState) : EnvelopeState :=
  { stage := .attack, currentLevel := s.currentLevel,
    stageStartLevel := s.currentLevel, stageElapsed := 0 }

/-- Modelled from the spec: "`releaseEnvelope()` forces stage to Release
from whatever the current level is". -/
def releaseEnvelope (s : EnvelopeState) : EnvelopeState :=
  { stage := .release, currentLevel := s.currentLevel,
    stageStartLevel := s.currentLevel, stageElapsed := 0 }

/-- Modelled from the spec: the level `t` seconds into the current
stage, per the linear-in-amplitude ramps of §4.2 — Attack ramps from the
value at entry to 1 over `attackTime`; Decay from 1 to `sustainLevel`
over `decayTime`; Hold and Sustain sit at `sustainLevel`; Release ramps
from the value at entry down to 0 over `releaseTime`; Idle is 0. -/
def stageLevel (p : EnvelopeParams) (s : EnvelopeState) (t : ℚ) : ℚ :=
  match s.stage with
  | .idle => 0
  | .attack => s.stageStartLevel + (1 - s.stageStartLevel) * (t / p.attackTime)
  | .decay => 1 - (1 - p.sustainLevel) * (t / p.decayTime)
  | .hold => p.sustainLevel
  | .sustain => p.sustainLevel
  | .release => s.stageStartLevel - s.stageStartLevel * (t / p.releaseTime)

/-! ## Helper lemmas -/

/-- `rustProcessor.process` ends in a single `return true`: the returned
flag is `true` in every branch. -/
theorem rust_process_flag (deviceRate : ℚ) (s : SamplerState) (n : Nat) :
    (rust_process deviceRate s n).2.2 = true := by
  rcases s with ⟨i, sb, sr, ip, pp⟩
  cases sb <;> cases ip <;> rfl

/-! ## Claims about the sampler processor -/

/-- Claim C1: the claim says that when the playback position reaches the
end of the buffer with loop disabled, the transport stops and the
remainder of the block is silence, with the position staying in
`[0, sampleLength)`.  The code stops the transport (`isPlaying := false`)
but resets the position to 0 without rechecking the playing flag inside
the block loop, so the remainder of the block replays sample data from
the start of the buffer.  Evaluating the processor on a one-sample
buffer `[1]` at equal source and device rates over a 4-frame block: the
end is reached at frame 1, yet frame 2 outputs the sample value 1 again
instead of silence. -/
theorem C1_overrun_block_eval :
    rust_process 48000 ⟨true, some [1], 48000, true, 0⟩ 4
      = (⟨true, some [1], 48000, false, 0⟩, [1, 0, 1, 0], true) := by
  norm_num [rust_process, blockLoop]

/-- Claim C2, counterexample: loading an empty buffer with rate 0 onto a
processor that holds the sample `[1, 2, 3]` is not rejected — the prior
sample is replaced by the empty buffer and a `sampleLoaded` message is
posted, with no error message. -/
theorem C2_counterexample :
    (loadSample ⟨true, some [1, 2, 3], 44100, false, 0⟩ ⟨[], none, 0⟩).1.sampleBuffer
        = some []
    ∧ (loadSample ⟨true, some [1, 2, 3], 44100, false, 0⟩ ⟨[], none, 0⟩).2
        = [.sampleLoaded] := by
  constructor <;> rfl

/-- Claim C2, amended: for every load command received by an initialized
worklet — including one with an empty buffer or non-positive rate — the
load succeeds: the sample buffer is replaced wholesale, the playback
position resets to 0, a `sampleLoaded` event is posted, and no error
event is posted.  No validation of the buffer or rate is performed. -/
theorem C2_load_always_replaces (s : SamplerState) (d : AudioData)
    (h : s.initialized = true) :
    loadSample s d =
      ({ s with sampleBuffer := some d.left, sampleRate := d.sampleRate,
                playbackPosition := 0 },
       [.sampleLoaded]) := by
  simp [loadSample, load_sample_data, h]

/-- Claim C2, witness: the amended statement at a concrete load. -/
theorem C2_witness :
    loadSample ⟨true, some [1], 44100, false, 7⟩ ⟨[2], none, 22050⟩
      = (⟨true, some [2], 22050, false, 0⟩, [.sampleLoaded]) :=
  C2_load_always_replaces ⟨true, some [1], 44100, false, 7⟩ ⟨[2], none, 22050⟩ rfl

/-- Claim C3, counterexample: a per-block step that throws after having
written the non-silent partial block `[5]` is caught, but the result is
neither silenced nor reported: the output stays `[5]` (not the silent
block `[0]`) and the posted event list is empty (no error event). -/
theorem C3_counterexample :
    renderBoundary ⟨true, none, 0, false, 0⟩ 1 false
        (fun _ _ => .error ("step failed", ⟨true, none, 0, false, 0⟩, [5]))
      = (⟨true, none, 0, false, 0⟩, [5], true, [])
    ∧ ([5] : List ℚ) ≠ [0] := by
  refine ⟨rfl, ?_⟩
  norm_num

/-- Claim C3, amended: every exception raised inside the per-block
render step of an initialized processor is caught at the render boundary
and the render callback returns `true` (it keeps running); the output
block is left exactly as the failing step left it (it is not overwritten
with silence) and no event — in particular no error event — is
posted. -/
theorem C3_render_fault_kept_alive (s : SamplerState) (n : Nat) (draw : Bool)
    (e : String) (s2 : SamplerState) (out : List ℚ) (h : s.initialized = true) :
    renderBoundary s n draw (fun _ _ => .error (e, s2, out)) = (s2, out, true, []) := by
  simp [renderBoundary, h]

/-- Claim C3, witness: the amended statement at a concrete throwing
step. -/
theorem C3_witness :
    renderBoundary ⟨true, some [1], 48000, true, 0⟩ 2 true
        (fun _ _ => .error ("step failed", ⟨true, some [1], 48000, true, 0⟩, [3, 4]))
      = (⟨true, some [1], 48000, true, 0⟩, [3, 4], true, []) :=
  C3_render_fault_kept_alive ⟨true, some [1], 48000, true, 0⟩ 2 true
    "step failed" ⟨true, some [1], 48000, true, 0⟩ [3, 4] rfl

/-- Claim C9: `set_playback_state(false)` — the single call used for
both pause and stop — always resets the playback position to 0 and
clears the playing flag; with `true` the position is preserved, so no
state transition preserves the position while not playing. -/
theorem C9_stop_resets_position (s : SamplerState) (b : Bool) :
    (set_playback_state s false).playbackPosition = 0
    ∧ (set_playback_state s false).isPlaying = false
    ∧ (set_playback_state s b).playbackPosition
        = (if b then s.playbackPosition else 0) := by
  refine ⟨rfl, rfl, rfl⟩

/-- Claim C10: the worklet's `process` is total at its boundary — when
the processor is uninitialized it writes a silent block and returns
`true`; when the inner step throws, the exception is caught and `true`
is still returned; and composed with the actual inner step it returns
`true` on every input. -/
theorem C10_process_total (s : SamplerState) (n : Nat) (draw : Bool)
    (inner : SamplerState → Nat → Except (String × SamplerState × List ℚ)
      (SamplerState × List ℚ × Bool)) :
    (s.initialized = false →
      renderBoundary s n draw inner = (s, List.replicate n 0, true, []))
    ∧ (∀ e s2 out, inner s n = .error (e, s2, out) →
        (renderBoundary s n draw inner).2.2.1 = true)
    ∧ (∀ deviceRate : ℚ, (samplerProcess deviceRate s n draw).2.2.1 = true) := by
  refine ⟨fun h => by simp [renderBoundary, h], fun e s2 out h => ?_, fun deviceRate => ?_⟩
  · by_cases hi : s.initialized
    · simp [renderBoundary, hi, h]
    · simp [renderBoundary, hi]
  · by_cases hi : s.initialized
    · simp [samplerProcess, renderBoundary, hi, rust_process_flag]
    · simp [samplerProcess, renderBoundary, hi]

/-- Claim C10, witness: the totality statement at concrete inputs — an
uninitialized processor produces a silent 2-frame block and returns
`true`, and an initialized playing processor returns `true`. -/
theorem C10_witness :
    renderBoundary ⟨false, none, 0, false, 0⟩ 2 false
        (fun st n => .ok (rust_process 48000 st n))
      = (⟨false, none, 0, false, 0⟩, [0, 0], true, [])
    ∧ (samplerProcess 48000 ⟨true, some [1], 48000, true, 0⟩ 4 false).2.2.1 = true :=
  ⟨(C10_process_total ⟨false, none, 0, false, 0⟩ 2 false
      (fun st n => .ok (rust_process 48000 st n))).1 rfl,
   (C10_process_total ⟨true, some [1], 48000, true, 0⟩ 4 false
      (fun st n => .ok (rust_process 48000 st n))).2.2 48000⟩

/-- The eviction loop drops exactly the frames beyond capacity from the
front, returning them (oldest first) as the closed frames. -/
theorem trimFrameBuffer_eq (m : Nat) :
    ∀ l : List VideoFrame,
      trimFrameBuffer m l = (l.drop (l.length - m), l.take (l.length - m)) := by
  intro l
  induction l with
  | nil => simp [trimFrameBuffer]
  | cons o rest ih =>
    by_cases h : m < rest.length + 1
    · have hm : m ≤ rest.length := Nat.lt_succ_iff.mp h
      have hsub : rest.length + 1 - m = (rest.length - m) + 1 := by omega
      simp [trimFrameBuffer, h, ih, hsub]
    · have h0 : rest.length + 1 - m = 0 := by omega
      simp [trimFrameBuffer, h, h0]

/-- A push never leaves the kept buffer over capacity. -/
theorem addFrameToBuffer_length_le (buf : List VideoFrame) (f : VideoFrame) :
    (addFrameToBuffer buf f).1.length ≤ maxBufferSize := by
  simp only [addFrameToBuffer, trimFrameBuffer_eq, List.length_drop, maxBufferSize]
  omega

/-- Folding pushes over any starting buffer within capacity keeps the
buffer within capacity. -/
theorem pushAll_length_le (fs : List VideoFrame) (b0 : List VideoFrame)
    (h : b0.length ≤ maxBufferSize) :
    (fs.foldl (fun b g => (addFrameToBuffer b g).1) b0).length ≤ maxBufferSize := by
  induction fs generalizing b0 with
  | nil => simpa using h
  | cons g gs ih => exact ih _ (addFrameToBuffer_length_le b0 g)

/-- Claim C5: starting from the empty buffer, no sequence of pushes ever
leaves more than `maxBufferSize = 30` frames in the buffer; a push into
a buffer below capacity evicts nothing; and a push into a full buffer
closes exactly the single oldest frame, keeping every newer frame plus
the pushed one. -/
theorem C5_frame_buffer_bound (fs : List VideoFrame) (buf : List VideoFrame)
    (f : VideoFrame) (h : buf.length ≤ maxBufferSize) :
    (fs.foldl (fun b g => (addFrameToBuffer b g).1) []).length ≤ maxBufferSize
    ∧ (addFrameToBuffer buf f).1.length ≤ maxBufferSize
    ∧ (buf.length < maxBufferSize → addFrameToBuffer buf f = (buf ++ [f], []))
    ∧ (buf.length = maxBufferSize →
        (addFrameToBuffer buf f).2 = buf.take 1
        ∧ (addFrameToBuffer buf f).1 = buf.drop 1 ++ [f]) := by
  refine ⟨pushAll_length_le fs [] (by simp), addFrameToBuffer_length_le buf f,
    fun hlt => ?_, fun heq => ?_⟩
  · have h0 : (buf ++ [f]).length - maxBufferSize = 0 := by
      simp only [List.length_append, List.length_singleton, maxBufferSize]
      simp only [maxBufferSize] at hlt
      omega
    rw [addFrameToBuffer, trimFrameBuffer_eq, h0]
    simp
  · have h1 : (buf ++ [f]).length - maxBufferSize = 1 := by
      simp only [List.length_append, List.length_singleton, maxBufferSize]
      simp only [maxBufferSize] at heq
      omega
    have hb : 1 ≤ buf.length := by
      simp only [maxBufferSize] at heq
      omega
    constructor
    · rw [addFrameToBuffer, trimFrameBuffer_eq, h1]
      simp [List.take_append_of_le_length hb]
    · rw [addFrameToBuffer, trimFrameBuffer_eq, h1]
      simp [List.drop_append_of_le_length hb]

/-- Claim C5, witness: pushing one frame onto a concrete full buffer of
30 frames evicts exactly the oldest frame and keeps the 29 newer ones
plus the new frame. -/
theorem C5_witness :
    (addFrameToBuffer (List.replicate 30 ⟨0, 1, 1⟩) ⟨99, 1, 1⟩).2
        = (List.replicate 30 (⟨0, 1, 1⟩ : VideoFrame)).take 1
    ∧ (addFrameToBuffer (List.replicate 30 ⟨0, 1, 1⟩) ⟨99, 1, 1⟩).1
        = (List.replicate 30 (⟨0, 1, 1⟩ : VideoFrame)).drop 1 ++ [⟨99, 1, 1⟩] :=
  (C5_frame_buffer_bound [] (List.replicate 30 ⟨0, 1, 1⟩) ⟨99, 1, 1⟩
    (by simp [maxBufferSize])).2.2.2 (by simp [maxBufferSize])

/-- The closest-frame scan step never discards an existing candidate. -/
theorem closerFrame_isSome (t : ℚ) (acc : Option VideoFrame) (fr : VideoFrame) :
    ∃ c, closerFrame t acc fr = some c := by
  cases acc with
  | none => exact ⟨fr, rfl⟩
  | some best =>
    by_cases h : |fr.timestamp - t| < |best.timestamp - t|
    · exact ⟨fr, by simp [closerFrame, h]⟩
    · exact ⟨best, by simp [closerFrame, h]⟩

/-- Folding the scan step from a present candidate stays present. -/
theorem foldl_closerFrame_isSome (t : ℚ) :
    ∀ (l : List VideoFrame) (c : VideoFrame),
      ∃ f, l.foldl (closerFrame t) (some c) = some f := by
  intro l
  induction l with
  | nil => exact fun c => ⟨c, rfl⟩
  | cons x xs ih =>
    intro c
    obtain ⟨c2, hc2⟩ := closerFrame_isSome t (some c) x
    simpa [hc2] using ih c2

/-- A frame produced by the scan is the accumulator or a scanned frame. -/
theorem foldl_closerFrame_mem (t : ℚ) :
    ∀ (l : List VideoFrame) (acc : Option VideoFrame) (f : VideoFrame),
      l.foldl (closerFrame t) acc = some f → acc = some f ∨ f ∈ l := by
  intro l
  induction l with
  | nil => exact fun acc f h => Or.inl h
  | cons x xs ih =>
    intro acc f h
    rcases ih (closerFrame t acc x) f h with h1 | h2
    · cases acc with
      | none =>
        simp only [closerFrame, Option.some.injEq] at h1
        exact Or.inr (by simp [← h1])
      | some best =>
        by_cases hlt : |x.timestamp - t| < |best.timestamp - t|
        · simp only [closerFrame, hlt, if_true, Option.some.injEq] at h1
          exact Or.inr (by simp [← h1])
        · simp only [closerFrame, hlt, if_false, Option.some.injEq] at h1
          exact Or.inl (by simp [h1])
    · exact Or.inr (List.mem_cons_of_mem x h2)

/-- The frame produced by the scan minimizes the absolute timestamp
difference over both the scanned frames and the starting candidate. -/
theorem foldl_closerFrame_min (t : ℚ) :
    ∀ (l : List VideoFrame) (acc : Option VideoFrame) (f : VideoFrame),
      l.foldl (closerFrame t) acc = some f →
        (∀ g ∈ l, |f.timestamp - t| ≤ |g.timestamp - t|)
        ∧ (∀ b, acc = some b → |f.timestamp - t| ≤ |b.timestamp - t|) := by
  intro l
  induction l with
  | nil =>
    intro acc f h
    refine ⟨by simp, fun b hb => ?_⟩
    rw [hb] at h
    simp only [List.foldl_nil, Option.some.injEq] at h
    rw [h]
  | cons x xs ih =>
    intro acc f h
    obtain ⟨c, hc⟩ := closerFrame_isSome t acc x
    have hrec := ih (closerFrame t acc x) f h
    have hfc : |f.timestamp - t| ≤ |c.timestamp - t| := hrec.2 c hc
    have hcx : |c.timestamp - t| ≤ |x.timestamp - t| := by
      cases acc with
      | none =>
        simp only [closerFrame, Option.some.injEq] at hc
        rw [← hc]
      | some best =>
        by_cases hlt : |x.timestamp - t| < |best.timestamp - t|
        · simp only [closerFrame, hlt, if_true, Option.some.injEq] at hc
          rw [← hc]
        · simp only [closerFrame, hlt, if_false, Option.some.injEq] at hc
          rw [← hc]
          exact le_of_not_lt hlt
    refine ⟨fun g hg => ?_, fun b hb => ?_⟩
    · rcases List.mem_cons.mp hg with hgx | hgxs
      · rw [hgx]
        exact hfc.trans hcx
      · exact hrec.1 g hgxs
    · have hcb : |c.timestamp - t| ≤ |b.timestamp - t| := by
        rw [hb] at hc
        by_cases hlt : |x.timestamp - t| < |b.timestamp - t|
        · simp only [closerFrame, hlt, if_true, Option.some.injEq] at hc
          rw [← hc]
          exact le_of_lt hlt
        · simp only [closerFrame, hlt, if_false, Option.some.injEq] at hc
          rw [← hc]
      exact hfc.trans hcb

/-- Claim C6: `getFrameAtTime` returns null on the empty buffer, after
`clearFrameBuffer`, and after the clear performed by `seek`; on a
non-empty buffer it returns a buffered frame whose timestamp has the
minimum absolute difference to the query time (in microseconds) among
all buffered frames — in particular a frame ahead of the query time may
be selected. -/
theorem C6_frame_nearest (st : DecoderState) (buf : List VideoFrame) (time q : ℚ) :
    getFrameAtTime (clearFrameBuffer buf).1 q = none
    ∧ getFrameAtTime (decoderSeek st time).frameBuffer q = none
    ∧ (buf = [] → getFrameAtTime buf q = none)
    ∧ (∀ f, getFrameAtTime buf q = some f →
        f ∈ buf ∧ ∀ g ∈ buf,
          |f.timestamp - q * 1000000| ≤ |g.timestamp - q * 1000000|)
    ∧ (buf ≠ [] → ∃ f, getFrameAtTime buf q = some f) := by
  refine ⟨rfl, rfl, fun hb => by simp [getFrameAtTime, hb], fun f hf => ?_, fun hb => ?_⟩
  · have hmem := foldl_closerFrame_mem (q * 1000000) buf none f hf
    have hmin := foldl_closerFrame_min (q * 1000000) buf none f hf
    refine ⟨?_, hmin.1⟩
    rcases hmem with hnone | hm
    · exact absurd hnone (by simp)
    · exact hm
  · cases buf with
    | nil => exact absurd rfl hb
    | cons x xs =>
      obtain ⟨f, hf⟩ := foldl_closerFrame_isSome (q * 1000000) xs x
      exact ⟨f, by simpa [getFrameAtTime, closerFrame] using hf⟩

/-- Claim C6, witness: on a concrete two-frame buffer (timestamps 0 s
and 2 s) queried at 1.2 s, a frame exists and the selected frame is the
one 0.8 s ahead of the query time. -/
theorem C6_witness :
    (∃ f, getFrameAtTime [⟨0, 2, 2⟩, ⟨2000000, 2, 2⟩] (12 / 10) = some f)
    ∧ getFrameAtTime [⟨0, 2, 2⟩, ⟨2000000, 2, 2⟩] (12 / 10) = some ⟨2000000, 2, 2⟩ :=
  ⟨(C6_frame_nearest ⟨[], 0, 0⟩ [⟨0, 2, 2⟩, ⟨2000000, 2, 2⟩] 0 (12 / 10)).2.2.2.2
      (by simp),
   by norm_num [getFrameAtTime, closerFrame]⟩

/-- Claim C7: on a sync tick, a drift strictly above the threshold makes
the controller hard-seek the video decoder to the master audio time
(clearing the decoder's frame buffer in the process), and a drift at or
below the threshold issues no seek and leaves the decoder untouched. -/
theorem C7_drift_resync (maxTimeDifference : ℚ) (st : DecoderState) (audioTime : ℚ) :
    (|audioTime - st.currentTime| > maxTimeDifference →
      syncAudioVideo maxTimeDifference st audioTime
        = (decoderSeek st audioTime, some audioTime))
    ∧ (|audioTime - st.currentTime| ≤ maxTimeDifference →
      syncAudioVideo maxTimeDifference st audioTime = (st, none)) := by
  constructor
  · intro h
    simp only [syncAudioVideo]
    rw [if_pos h]
  · intro h
    simp only [syncAudioVideo]
    rw [if_neg (not_lt.mpr h)]

/-- Claim C7, witness: with the default threshold 0.1 s, audio time
10.00 against video time 9.85 (drift 0.15) triggers a hard seek to
10.00, while video time 9.95 (drift 0.05) triggers none. -/
theorem C7_witness :
    syncAudioVideo defaultMaxTimeDifference ⟨[], 20, 985 / 100⟩ 10
      = (decoderSeek ⟨[], 20, 985 / 100⟩ 10, some 10)
    ∧ syncAudioVideo defaultMaxTimeDifference ⟨[], 20, 995 / 100⟩ 10
      = (⟨[], 20, 995 / 100⟩, none) :=
  ⟨(C7_drift_resync defaultMaxTimeDifference ⟨[], 20, 985 / 100⟩ 10).1 (by
      rw [show (10 : ℚ) - (⟨[], 20, 985 / 100⟩ : DecoderState).currentTime = 15 / 100
        by norm_num]
      rw [abs_of_pos (by norm_num)]
      norm_num [defaultMaxTimeDifference]),
   (C7_drift_resync defaultMaxTimeDifference ⟨[], 20, 995 / 100⟩ 10).2 (by
      rw [show (10 : ℚ) - (⟨[], 20, 995 / 100⟩ : DecoderState).currentTime = 5 / 100
        by norm_num]
      rw [abs_of_pos (by norm_num)]
      norm_num [defaultMaxTimeDifference])⟩

/-- Claim C8: `calculateSyncMetrics` reports the signed time difference,
`inSync = (|timeDifference| ≤ maxTimeDifference)`, and
`syncQuality = max(0, 100 - (|timeDifference| / maxTimeDifference) * 100)`;
at the default threshold 0.1 s a drift of 0.05 s yields quality 50 and
`inSync = true`. -/
theorem C8_sync_metrics (maxTimeDifference : ℚ) (st : DecoderState) (audioTime : ℚ) :
    calculateSyncMetrics maxTimeDifference (some st) audioTime
      = ⟨audioTime - st.currentTime,
         decide (|audioTime - st.currentTime| ≤ maxTimeDifference),
         max 0 (100 - (|audioTime - st.currentTime| / maxTimeDifference) * 100)⟩
    ∧ calculateSyncMetrics defaultMaxTimeDifference (some ⟨[], 20, 995 / 100⟩) 10
      = ⟨5 / 100, true, 50⟩ := by
  constructor
  · rfl
  · simp only [calculateSyncMetrics, defaultMaxTimeDifference]
    rw [show |(10 : ℚ) - (⟨[], 20, 995 / 100⟩ : DecoderState).currentTime| = 1 / 20 by
      rw [show (10 : ℚ) - (⟨[], 20, 995 / 100⟩ : DecoderState).currentTime = 1 / 20
        by norm_num]
      exact abs_of_pos (by norm_num)]
    norm_num

/-- Claim C4: a trigger arriving in any envelope stage — in particular
during Release at current level L — restarts the Attack stage with its
ramp anchored at L (the level at time 0 into the restarted Attack is L,
not 0); and a release arriving in any stage — in particular during
Attack at level L — enters Release whose level is the exact linear ramp
`L * (1 - t / releaseTime)`, equal to L at t = 0 and to 0 at
t = releaseTime. -/
theorem C4_envelope_retrigger_release (p : EnvelopeParams) (s : EnvelopeState)
    (hrt : 0 < p.releaseTime) :
    ((triggerEnvelope s).stage = .attack
      ∧ (triggerEnvelope s).currentLevel = s.currentLevel
      ∧ stageLevel p (triggerEnvelope s) 0 = s.currentLevel)
    ∧ ((releaseEnvelope s).stage = .release
      ∧ stageLevel p (releaseEnvelope s) 0 = s.currentLevel
      ∧ (∀ t, stageLevel p (releaseEnvelope s) t
          = s.currentLevel * (1 - t / p.releaseTime))
      ∧ stageLevel p (releaseEnvelope s) p.releaseTime = 0) := by
  have hne : p.releaseTime ≠ 0 := ne_of_gt hrt
  refine ⟨⟨rfl, rfl, by simp [stageLevel, triggerEnvelope]⟩,
          rfl, by simp [stageLevel, releaseEnvelope], fun t => ?_, ?_⟩
  · simp only [stageLevel, releaseEnvelope]
    ring
  · simp [stageLevel, releaseEnvelope, div_self hne]

/-- Claim C4, witness: with release time 2, a trigger during Release at
level 3/4 restarts Attack at level 3/4, and a release during Attack at
level 3/4 reaches level 0 exactly at t = 2. -/
theorem C4_witness :
    (triggerEnvelope ⟨.release, 3 / 4, 1 / 2, 5⟩).stage = .attack
    ∧ stageLevel ⟨1, 1, 1, 1 / 2, 2⟩ (triggerEnvelope ⟨.release, 3 / 4, 1 / 2, 5⟩) 0
        = 3 / 4
    ∧ stageLevel ⟨1, 1, 1, 1 / 2, 2⟩ (releaseEnvelope ⟨.attack, 3 / 4, 0, 5⟩) 0
        = 3 / 4
    ∧ stageLevel ⟨1, 1, 1, 1 / 2, 2⟩ (releaseEnvelope ⟨.attack, 3 / 4, 0, 5⟩) 2 = 0 :=
  ⟨(C4_envelope_retrigger_release ⟨1, 1, 1, 1 / 2, 2⟩ ⟨.release, 3 / 4, 1 / 2, 5⟩
      (by norm_num)).1.1,
   (C4_envelope_retrigger_release ⟨1, 1, 1, 1 / 2, 2⟩ ⟨.release, 3 / 4, 1 / 2, 5⟩
      (by norm_num)).1.2.2,
   (C4_envelope_retrigger_release ⟨1, 1, 1, 1 / 2, 2⟩ ⟨.attack, 3 / 4, 0, 5⟩
      (by norm_num)).2.2.1,
   (C4_envelope_retrigger_release ⟨1, 1, 1, 1 / 2, 2⟩ ⟨.attack, 3 / 4, 0, 5⟩
      (by norm_num)).2.2.2.2⟩

end RustChord
